import Mathlib

/-!
Verification development for the fact-checking pipeline
(`claim_extractor.py`, `fact_verifier.py`, `app.py`).

Python strings are modelled as `List Char` (Python indexing/slicing is by
code point, matching `List Char` operations).  Python dicts holding JSON
data are modelled as insertion-ordered association lists.  The two external
network services (the Tavily search provider and the OpenRouter completion
provider) are modelled as oracles carried in an `Env` record; `st.secrets`
lookups are modelled as string fields of `Env` where the empty string
stands for an absent secret (`st.secrets.get(key, "")`).
-/

namespace FactCheck

/-- Python strings as lists of characters. -/
abbrev Str := List Char

/-- Literal helper: a Lean string literal as a `Str`. -/
def S (s : String) : Str := s.data

/-- The backtick character (written by code to keep it out of the source). -/
def bq : Char := '\x60'

/-- Opening curly brace character. -/
def obr : Char := '\x7b'

/-- Closing curly brace character. -/
def cbr : Char := '\x7d'

/-- JSON values as produced by `json.loads`.  `num q isFloat` keeps the
rational value together with whether the literal had a fraction/exponent
(Python distinguishes `int` from `float`). Object fields keep insertion
order, as Python dicts do. -/
inductive JsonVal : Type where
  | null : JsonVal
  | bool : Bool → JsonVal
  | num : ℚ → Bool → JsonVal
  | str : Str → JsonVal
  | arr : List JsonVal → JsonVal
  | obj : List (Str × JsonVal) → JsonVal

/-- String JSON value from a Lean literal. -/
def jstr (s : String) : JsonVal := .str (S s)

/-- A Python dict with string keys holding JSON data, in insertion order. -/
abbrev PyDict := List (Str × JsonVal)

/-- `d[k] = v` on a Python dict: replace in place if the key exists
(keeping its position), else append. -/
def assocSet (d : PyDict) (k : Str) (v : JsonVal) : PyDict :=
  match d with
  | [] => [(k, v)]
  | (k', v') :: rest => if k' = k then (k, v) :: rest else (k', v') :: assocSet rest k v

/-- `d.get(k, dflt)` on a Python dict. -/
def pyGet (d : PyDict) (k : Str) (dflt : JsonVal) : JsonVal :=
  match d with
  | [] => dflt
  | (k', v) :: rest => if k' = k then v else pyGet rest k dflt

/-- `d[k]` lookup without default (`none` when absent). -/
def fieldOf (d : PyDict) (k : Str) : Option JsonVal :=
  match d with
  | [] => none
  | (k', v) :: rest => if k' = k then some v else fieldOf rest k

/-! ## A model of `json.loads`

Recursive-descent JSON parser over `List Char`, fuelled for termination.
It accepts exactly the strict JSON grammar that `json.loads` accepts on the
inputs arising here: double-quoted strings with the standard escapes,
numbers, `true`/`false`/`null`, arrays and objects; duplicate object keys
keep the first position with the last value, as Python dicts do.
(The nonstandard `NaN`/`Infinity` literals Python also tolerates are not
modelled; no claim exercises them.) -/

/-- JSON whitespace (`json.loads` skips exactly space, tab, LF, CR). -/
def isJsonWs (c : Char) : Bool := c = ' ' || c = '\t' || c = '\n' || c = '\r'

/-- ASCII digit test. -/
def isDigitC (c : Char) : Bool := '0' ≤ c && c ≤ '9'

/-- Digit value of an ASCII digit. -/
def digitVal (c : Char) : Nat := c.toNat - 48

/-- Hex digit value, if any. -/
def hexVal (c : Char) : Option Nat :=
  if isDigitC c then some (digitVal c)
  else if 'a' ≤ c && c ≤ 'f' then some (c.toNat - 87)
  else if 'A' ≤ c && c ≤ 'F' then some (c.toNat - 55)
  else none

/-- Decimal digits to a natural number. -/
def digitsToNat (l : List Char) : Nat := l.foldl (fun acc c => 10 * acc + digitVal c) 0

/-- Escape-sequence table for JSON strings. -/
def escChar (e : Char) : Option Char :=
  if e = '"' then some '"'
  else if e = '\\' then some '\\'
  else if e = '/' then some '/'
  else if e = 'b' then some '\x08'
  else if e = 'f' then some '\x0c'
  else if e = 'n' then some '\n'
  else if e = 'r' then some '\r'
  else if e = 't' then some '\t'
  else none

/-- Body of a JSON string after the opening quote; returns the decoded
characters and the input after the closing quote.  Control characters
below 0x20 are rejected (`json.loads` is strict by default). -/
def parseStringBody : Nat → List Char → Option (Str × List Char)
  | 0, _ => none
  | _, [] => none
  | fuel + 1, c :: cs =>
    if c = '"' then some ([], cs)
    else if c = '\\' then
      match cs with
      | [] => none
      | e :: cs' =>
        if e = 'u' then
          match cs' with
          | h1 :: h2 :: h3 :: h4 :: cs'' =>
            match hexVal h1, hexVal h2, hexVal h3, hexVal h4 with
            | some a, some b, some c2, some d =>
              match parseStringBody fuel cs'' with
              | some (s, rest) => some (Char.ofNat (((a * 16 + b) * 16 + c2) * 16 + d) :: s, rest)
              | none => none
            | _, _, _, _ => none
          | _ => none
        else
          match escChar e with
          | some ec =>
            match parseStringBody fuel cs' with
            | some (s, rest) => some (ec :: s, rest)
            | none => none
          | none => none
    else if c.toNat < 32 then none
    else
      match parseStringBody fuel cs with
      | some (s, rest) => some (c :: s, rest)
      | none => none

/-- JSON number parsing (strict grammar; a leading `0` cannot be followed
by more integer digits, a fraction/exponent needs at least one digit). -/
def parseNumber (s : List Char) : Option (JsonVal × List Char) :=
  let (neg, s1) :=
    match s with
    | c :: cs => if c = '-' then (true, cs) else (false, s)
    | [] => (false, s)
  match s1 with
  | [] => none
  | c :: _ =>
    if !isDigitC c then none
    else
      let (ipart, s2) :=
        if c = '0' then ([c], s1.tail) else (s1.takeWhile isDigitC, s1.dropWhile isDigitC)
      let (fdigits, s3, hasFrac) :=
        match s2 with
        | '.' :: rest =>
          let fd := rest.takeWhile isDigitC
          if fd = [] then (([] : List Char), s2, false) else (fd, rest.dropWhile isDigitC, true)
        | _ => ([], s2, false)
      let (eneg, edigits, s4, hasExp) :=
        match s3 with
        | e :: rest =>
          if e = 'e' ∨ e = 'E' then
            match rest with
            | sgn :: rest2 =>
              if sgn = '+' ∨ sgn = '-' then
                let ed := rest2.takeWhile isDigitC
                if ed = [] then (false, ([] : List Char), s3, false)
                else (sgn = '-', ed, rest2.dropWhile isDigitC, true)
              else
                let ed := rest.takeWhile isDigitC
                if ed = [] then (false, ([] : List Char), s3, false)
                else (false, ed, rest.dropWhile isDigitC, true)
            | [] => (false, [], s3, false)
          else (false, [], s3, false)
        | [] => (false, [], s3, false)
      let mag : ℚ :=
        (digitsToNat ipart : ℚ) + (digitsToNat fdigits : ℚ) / ((10 : ℚ) ^ fdigits.length)
      let mag : ℚ :=
        if hasExp then
          if eneg then mag / (10 : ℚ) ^ digitsToNat edigits
          else mag * (10 : ℚ) ^ digitsToNat edigits
        else mag
      let q : ℚ := if neg then -mag else mag
      some (.num q (hasFrac || hasExp), s4)

/-- Parser continuations: which grammar production the recursive-descent
parser is working on.  (One fuelled function over this job type rather
than six mutually recursive ones so that concrete runs reduce
definitionally.) -/
inductive PJob : Type where
  | val : PJob
  | arrStart : PJob
  | arrRest : List JsonVal → PJob
  | objStart : PJob
  | member : PyDict → Str → PJob
  | objRest : PyDict → PJob

/-- One recursive-descent parser step: `.val` parses one JSON value after
skipping whitespace; `.arrStart`/`.arrRest acc` handle an array body after
`[` and after an element; `.objStart`/`.member acc k`/`.objRest acc`
handle an object body after the opening brace, after a parsed key, and
after a parsed member. -/
def parseStep : Nat → PJob → List Char → Option (JsonVal × List Char)
  | 0, _, _ => none
  | fuel + 1, job, s =>
    match job with
    | .val =>
      match s.dropWhile isJsonWs with
      | [] => none
      | c :: cs =>
        if c = obr then parseStep fuel .objStart cs
        else if c = '[' then parseStep fuel .arrStart cs
        else if c = '"' then
          match parseStringBody (cs.length + 1) cs with
          | some (str, rest) => some (.str str, rest)
          | none => none
        else if c = 't' then
          if (S "rue").isPrefixOf cs then some (.bool true, cs.drop 3) else none
        else if c = 'f' then
          if (S "alse").isPrefixOf cs then some (.bool false, cs.drop 4) else none
        else if c = 'n' then
          if (S "ull").isPrefixOf cs then some (.null, cs.drop 3) else none
        else if c = '-' ∨ isDigitC c then parseNumber (c :: cs)
        else none
    | .arrStart =>
      match s.dropWhile isJsonWs with
      | ']' :: rest => some (.arr [], rest)
      | s' =>
        match parseStep fuel .val s' with
        | some (v, rest) => parseStep fuel (.arrRest [v]) rest
        | none => none
    | .arrRest acc =>
      match s.dropWhile isJsonWs with
      | ']' :: rest => some (.arr acc.reverse, rest)
      | ',' :: rest =>
        match parseStep fuel .val rest with
        | some (v, rest2) => parseStep fuel (.arrRest (v :: acc)) rest2
        | none => none
      | _ => none
    | .objStart =>
      match s.dropWhile isJsonWs with
      | c :: rest =>
        if c = cbr then some (.obj [], rest)
        else if c = '"' then
          match parseStringBody (rest.length + 1) rest with
          | some (k, rest2) => parseStep fuel (.member [] k) rest2
          | none => none
        else none
      | [] => none
    | .member acc k =>
      match s.dropWhile isJsonWs with
      | ':' :: rest =>
        match parseStep fuel .val rest with
        | some (v, rest2) => parseStep fuel (.objRest (assocSet acc k v)) rest2
        | none => none
      | _ => none
    | .objRest acc =>
      match s.dropWhile isJsonWs with
      | c :: rest =>
        if c = cbr then some (.obj acc, rest)
        else if c = ',' then
          match rest.dropWhile isJsonWs with
          | '"' :: rest2 =>
            match parseStringBody (rest2.length + 1) rest2 with
            | some (k, rest3) => parseStep fuel (.member acc k) rest3
            | none => none
          | _ => none
        else none
      | [] => none

/-- `json.loads`: parse a full document, requiring only whitespace after
the value.  The fuel bound exceeds any possible recursion depth. -/
def parseJson (s : Str) : Option JsonVal :=
  match parseStep (4 * s.length + 8) .val s with
  | some (v, rest) => if rest.dropWhile isJsonWs = [] then some v else none
  | none => none

/-! ## A model of Python `str()`/`repr()` on JSON data

`app.py` serializes the verdict list with `str(results)`, which is
`repr` of a list of dicts: single-quoted strings (double quotes only when
the string contains a quote conflict), `True`/`False`/`None`, and floats
printed with a decimal point. -/

/-- Decimal digits of a natural number. -/
def natDigitsStr (n : Nat) : Str := Nat.toDigits 10 n

/-- Decimal digits of an integer. -/
def intDigitsStr (i : Int) : Str :=
  if i < 0 then '-' :: natDigitsStr i.natAbs else natDigitsStr i.toNat

/-- Fractional digits of a rational in `[0,1)`, up to `fuel` digits
(Python prints at most 17 significant digits; only terminating fractions
arise in this development). -/
def fracDigitsStr : Nat → ℚ → Str
  | 0, _ => []
  | fuel + 1, q =>
    if q = 0 then []
    else
      let q10 := q * 10
      let d : Int := q10.floor
      Char.ofNat (48 + d.toNat) :: fracDigitsStr fuel (q10 - (d : ℚ))

/-- Python `repr` of a number: `int`s print bare, `float`s with a point. -/
def pyReprNum (q : ℚ) (isFloat : Bool) : Str :=
  if isFloat then
    let sgn : Str := if q < 0 then ['-'] else []
    let a : ℚ := |q|
    let ip : Int := a.floor
    let fr := fracDigitsStr 17 (a - (ip : ℚ))
    sgn ++ natDigitsStr ip.toNat ++ '.' :: (if fr = [] then ['0'] else fr)
  else intDigitsStr q.floor

/-- One character of a Python string repr with quote character `q`. -/
def pyEscape (q : Char) (c : Char) : Str :=
  if c = '\\' then ['\\', '\\']
  else if c = q then ['\\', q]
  else if c = '\n' then ['\\', 'n']
  else if c = '\r' then ['\\', 'r']
  else if c = '\t' then ['\\', 't']
  else [c]

/-- Python `repr` of a string: single quotes unless the string contains a
single quote and no double quote. -/
def pyReprStr (s : Str) : Str :=
  let q := if s.contains '\'' && !s.contains '"' then '"' else '\''
  q :: s.foldr (fun c acc => pyEscape q c ++ acc) [q]

mutual

/-- Python `repr` of a JSON value held in Python data structures. -/
def pyReprVal : JsonVal → Str
  | .null => S "None"
  | .bool true => S "True"
  | .bool false => S "False"
  | .num q f => pyReprNum q f
  | .str s => pyReprStr s
  | .arr xs => '[' :: pyReprListBody xs ++ [']']
  | .obj fs => obr :: pyReprFieldsBody fs ++ [cbr]

/-- Comma-separated list elements. -/
def pyReprListBody : List JsonVal → Str
  | [] => []
  | [x] => pyReprVal x
  | x :: xs => pyReprVal x ++ S ", " ++ pyReprListBody xs

/-- Comma-separated `key: value` dict entries. -/
def pyReprFieldsBody : List (Str × JsonVal) → Str
  | [] => []
  | [(k, v)] => pyReprStr k ++ S ": " ++ pyReprVal v
  | (k, v) :: fs => pyReprStr k ++ S ": " ++ pyReprVal v ++ S ", " ++ pyReprFieldsBody fs

end

/-- Python `str()` applied to a JSON value (identity on strings, `repr`
otherwise), as used by prompt interpolation. -/
def pyStrVal : JsonVal → Str
  | .str s => s
  | v => pyReprVal v

/-! ## Code-fence stripping (`claim_extractor.py` 95-102, `fact_verifier.py` 172-179)

```python
content = response.choices[0].message.content.strip()
if content.startswith("```"):
    content = content.split("```")[1]
    if content.startswith("json"):
        content = content[4:]
content = content.strip()
```
-/

/-- The triple-backtick fence marker. -/
def fence : Str := [bq, bq, bq]

/-- The `json` language tag. -/
def jsonTag : Str := S "json"

/-- Index of the first occurrence of the fence in a string, if any. -/
def findFence : List Char → Option Nat
  | [] => none
  | a :: rest =>
    if fence.isPrefixOf (a :: rest) then some 0
    else (findFence rest).map (· + 1)

/-- Python `content.split("```")`, fuelled (the fuel only needs to cover
the number of fence occurrences; `length` is always enough). -/
def splitFence : Nat → List Char → List (List Char)
  | 0, s => [s]
  | fuel + 1, s =>
    match findFence s with
    | none => [s]
    | some i => s.take i :: splitFence fuel (s.drop (i + 3))

/-- Python `content.split("```")`. -/
def pySplitFence (s : List Char) : List (List Char) := splitFence s.length s

/-- The fence-stripping branch (`content` already `.strip()`ed).  The `[1]`
index never faults: when the fence is a prefix the split has at least two
parts. -/
def stripFences (c : Str) : Str :=
  if fence.isPrefixOf c then
    let c1 := (pySplitFence c).getD 1 []
    if jsonTag.isPrefixOf c1 then c1.drop 4 else c1
  else c

/-- Python whitespace for `str.strip()` (ASCII cases). -/
def isPySpace (c : Char) : Bool :=
  c = ' ' || c = '\t' || c = '\n' || c = '\r' || c = '\x0b' || c = '\x0c'

/-- Python `s.strip()`. -/
def pyStrip (s : Str) : Str := List.rdropWhile isPySpace (s.dropWhile isPySpace)

/-- The full response normalization both parsers apply before `json.loads`:
strip, remove an optional code fence, strip again. -/
def normalizeResponse (raw : Str) : Str := pyStrip (stripFences (pyStrip raw))

/-! ## Document truncation (`claim_extractor.py` 76-79) -/

/-- The truncation marker appended when the document is cut. -/
def truncationMarker : Str := S "\n...[truncated]"

/-- `max_chars = 50000` truncation before prompt construction. -/
def truncateDoc (t : Str) : Str :=
  if t.length > 50000 then t.take 50000 ++ truncationMarker else t

/-! ## The environment: secrets and the two network collaborators

`st.secrets.get(key, "")` wrapped in `try/except` is modelled by a plain
string field where `[]` stands for a missing secret.  The Tavily search
call and the OpenRouter chat completion are oracles: `search` maps the
query object to the provider outcome, `judge` maps (model name, prompt)
to the completion text; `Except.error` is the provider raising.
The temperature / max-token request settings are absorbed into the
oracles, as they only shape provider behaviour. -/

/-- One entry of the Tavily `results` list (`url`/`title`/`content` keys,
each possibly absent). -/
structure SearchItem where
  url : Option Str
  title : Option Str
  content : Option Str

/-- The Tavily search response: optional synthesized `answer` plus the
`results` list (`.get("results", [])` makes an absent list empty). -/
structure SearchResponse where
  answer : Option Str
  results : List SearchItem

/-- Secrets and network oracles. -/
structure Env where
  tavilyKey : Str
  openrouterKey : Str
  modelName : Str
  search : JsonVal → Except Str SearchResponse
  judge : Str → Str → Except Str Str

/-- `get_tavily_client` (`fact_verifier.py` 14-22): raises unless the
Tavily key is configured. -/
def get_tavily_client (env : Env) : Except Str Unit :=
  if env.tavilyKey = [] then
    .error (S "Tavily API key not found in secrets. Please configure TAVILY_API_KEY.")
  else .ok ()

/-- `get_openai_client` (`fact_verifier.py` 25-38 and `claim_extractor.py`
13-26): raises unless the OpenRouter key is configured. -/
def get_openai_client (env : Env) : Except Str Unit :=
  if env.openrouterKey = [] then
    .error (S "API key not found in secrets. Please configure OPENROUTER_API_KEY.")
  else .ok ()

/-- `search_web` (`fact_verifier.py` 50-72), instrumented with the number
of provider calls made (0 when the client constructor raises first).
Provider errors are re-raised as `"Web search failed: ..."`. -/
def search_webI (env : Env) (query : JsonVal) : Except Str SearchResponse × Nat :=
  match get_tavily_client env with
  | .error e => (.error e, 0)
  | .ok _ =>
    match env.search query with
    | .error e => (.error (S "Web search failed: " ++ e), 1)
    | .ok r => (.ok r, 1)

/-- `search_web`, result only. -/
def search_web (env : Env) (query : JsonVal) : Except Str SearchResponse :=
  (search_webI env query).1

/-! ## Prompts -/

/-- `"\n\n".join(parts)`. -/
def joinSep (sep : Str) : List Str → Str
  | [] => []
  | [x] => x
  | x :: xs => x ++ sep ++ joinSep sep xs

/-- Python truthiness of the optional `answer` (absent or empty is falsy). -/
def isTruthyStr : Option Str → Bool
  | none => false
  | some s => !s.isEmpty

/-- Evidence-block formatting (`fact_verifier.py` 137-149): optional AI
summary first, then up to 5 results as URL/title/content blocks. -/
def formatResults (sr : SearchResponse) : Str :=
  let fs :=
    (if isTruthyStr sr.answer then [S "AI Summary: " ++ sr.answer.getD []] else []) ++
      (sr.results.take 5).map fun r =>
        S "Source: " ++ r.url.getD (S "Unknown") ++
        S "\nTitle: " ++ r.title.getD (S "No title") ++
        S "\nContent: " ++ r.content.getD (S "No content") ++ S "\n"
  joinSep (S "\n\n") fs

/-- `claim.get("claim", "")`. -/
def claimTextOf (c : PyDict) : JsonVal := pyGet c (S "claim") (jstr "")

/-- `claim.get("context", "")`. -/
def contextOf (c : PyDict) : JsonVal := pyGet c (S "context") (jstr "")

/-- `claim.get("category", "Unknown")`. -/
def categoryOf (c : PyDict) : JsonVal := pyGet c (S "category") (jstr "Unknown")

/-- `claim.get("verification_query", claim_text)`. -/
def queryOf (c : PyDict) : JsonVal := pyGet c (S "verification_query") (claimTextOf c)

/-- `VERIFICATION_PROMPT` up to `{claim}`. -/
def VP1 : Str := S "You are an expert fact-checker. Analyze the following claim against the search results and determine its accuracy.\n\nCLAIM TO VERIFY:\n"

/-- Between `{claim}` and `{context}`. -/
def VP2 : Str := S "\n\nCLAIM CONTEXT:\n"

/-- Between `{context}` and `{search_results}`. -/
def VP3 : Str := S "\n\nSEARCH RESULTS:\n"

/-- After `{search_results}` (literal braces written escaped). -/
def VP4 : Str := S "\n\nAnalyze the claim and search results, then provide your assessment in the following JSON format:\n\x7b\n    \"status\": \"Verified\" | \"Inaccurate\" | \"False\" | \"Unverifiable\",\n    \"confidence\": 0.0-1.0,\n    \"explanation\": \"Brief explanation of why this claim is verified/inaccurate/false\",\n    \"correct_information\": \"If the claim is inaccurate or false, provide the correct information found. Otherwise, leave empty.\",\n    \"sources\": [\"List of source URLs that support your conclusion\"]\n\x7d\n\nIMPORTANT GUIDELINES:\n- \"Verified\": The claim matches current, reliable data\n- \"Inaccurate\": The claim contains outdated or partially incorrect information (e.g., old statistics)\n- \"False\": The claim is demonstrably wrong or no evidence supports it\n- \"Unverifiable\": Cannot determine accuracy from available sources\n\nPay special attention to:\n- Dates and whether information might be outdated\n- Specific numbers that may have changed\n- Events that may or may not have occurred\n\nReturn ONLY valid JSON, no additional text."

/-- `VERIFICATION_PROMPT.format(claim=..., context=..., search_results=...)`;
`str.format` applies `str()` to non-string values. -/
def verificationPromptOf (c : PyDict) (sr : SearchResponse) : Str :=
  VP1 ++ pyStrVal (claimTextOf c) ++ VP2 ++ pyStrVal (contextOf c) ++ VP3 ++ formatResults sr ++ VP4

/-- `CLAIM_EXTRACTION_PROMPT` up to `{document_text}`. -/
def EP1 : Str := S "You are an expert fact-checker. Analyze the following document text and extract ALL verifiable claims that can be fact-checked against real-world data.\n\nFocus on extracting:\n1. Statistics and numerical data (percentages, amounts, counts)\n2. Dates and timelines (when events occurred or will occur)\n3. Financial figures (prices, GDP, market values, stock prices)\n4. Technical specifications and product details\n5. Company/organization statements and announcements\n6. Scientific or factual assertions\n\nFor EACH claim, provide:\n- claim: The exact claim as stated in the document\n- category: One of [Statistics, Date/Timeline, Financial, Technical, Organizational, Scientific]\n- context: Brief context about what the claim relates to\n- verification_query: A specific search query to verify this claim\n\nReturn your response as a JSON array of claim objects.\n\nDOCUMENT TEXT:\n"

/-- After `{document_text}`. -/
def EP2 : Str := S "\n\nIMPORTANT: Extract ALL factual claims, especially those involving specific numbers, dates, or named entities. Be thorough - the goal is to verify every checkable fact in the document.\n\nReturn ONLY valid JSON array, no additional text."

/-- `CLAIM_EXTRACTION_PROMPT.format(document_text=...)`. -/
def fmtExtractionPrompt (doc : Str) : Str := EP1 ++ doc ++ EP2

/-! ## Claim Verifier (`fact_verifier.py` 109-198) -/

/-- Stand-in for `str(e)` of a `json.JSONDecodeError` (the exact Python
message text is environment detail irrelevant to the claims). -/
def jsonDecodeMsg : Str := S "invalid JSON"

/-- Stand-in for `str(e)` of the `TypeError` raised by
`result["claim"] = ...` when `json.loads` returned a non-dict. -/
def typeErrorMsg : Str := S "TypeError"

/-- Stand-in for the `AttributeError` raised by `claim.get(...)` when the
claim is not a dict (line 119, outside every `try`). -/
def attrErrorMsg : Str := S "AttributeError"

/-- The literal fallback verdict dict built by both `except` branches of
`verify_claim` (lines 127-135 and 190-198), parameterized by the
explanation text. -/
def failVerdict (c : PyDict) (expl : Str) : PyDict :=
  [(S "claim", claimTextOf c), (S "category", categoryOf c),
   (S "status", jstr "Unverifiable"), (S "confidence", .num 0 true),
   (S "explanation", .str expl), (S "correct_information", jstr ""),
   (S "sources", .arr [])]

/-- Result of one `verify_claim` run plus how many judgment-gateway and
search-provider calls it made. -/
structure VerifyRun where
  result : Except Str PyDict
  judgeCalls : Nat
  searchCalls : Nat

/-- Response handling of `verify_claim` (lines 172-187 with the
`except` at 189-198): parse the normalized response; a parsed dict gets
`claim`/`category` overwritten from the original claim; a JSON parse
failure, or the `TypeError` from writing into a non-dict parse result,
falls back to the Unverifiable verdict. -/
def verify_parseStep (_env : Env) (c : PyDict) (raw : Str) (sc : Nat) : VerifyRun :=
  match parseJson (normalizeResponse raw) with
  | some (.obj fields) =>
    ⟨.ok (assocSet (assocSet fields (S "claim") (claimTextOf c))
        (S "category") (categoryOf c)), 1, sc⟩
  | some _ => ⟨.ok (failVerdict c (S "Verification analysis failed: " ++ typeErrorMsg)), 1, sc⟩
  | none => ⟨.ok (failVerdict c (S "Verification analysis failed: " ++ jsonDecodeMsg)), 1, sc⟩

/-- The LLM-analysis `try` block (`fact_verifier.py` 151-198), entered
after a successful search: client construction (outside the `try`), the
completion call, then response parsing. -/
def verify_judgeStep (env : Env) (c : PyDict) (sr : SearchResponse) (sc : Nat) : VerifyRun :=
  match get_openai_client env with
  | .error e => ⟨.error e, 0, sc⟩
  | .ok _ =>
    match env.judge env.modelName (verificationPromptOf c sr) with
    | .error e => ⟨.ok (failVerdict c (S "Verification analysis failed: " ++ e)), 1, sc⟩
    | .ok raw => verify_parseStep env c raw sc

/-- `verify_claim` on a claim dict: faithful control flow of
`fact_verifier.py` 109-198.  The search `try/except` (124-135) converts
search failure to a verdict before any judgment work; otherwise the
judgment step runs, whose client construction sits outside the `try`
(line 152) so its failure propagates. -/
def verify_claimDict (env : Env) (c : PyDict) : VerifyRun :=
  match search_webI env (queryOf c) with
  | (.error e, sc) => ⟨.ok (failVerdict c (S "Could not search web: " ++ e)), 0, sc⟩
  | (.ok sr, sc) => verify_judgeStep env c sr sc

/-- `verify_claim` dispatch on the argument: a dict claim runs the
pipeline above; `claim.get(...)` on anything else raises. -/
def verify_claimI (env : Env) (claim : JsonVal) : VerifyRun :=
  match claim with
  | .obj c => verify_claimDict env c
  | _ => ⟨.error attrErrorMsg, 0, 0⟩

/-- `verify_claim(claim)`: the returned value (`Except.error` models an
exception escaping to the caller). -/
def verify_claim (env : Env) (claim : JsonVal) : Except Str PyDict :=
  (verify_claimI env claim).result

/-! ## Claim Extractor (`claim_extractor.py` 64-114) -/

/-- Result of one `extract_claims` run plus its judgment-gateway calls. -/
structure ExtractRun where
  result : Except Str (List JsonVal)
  judgeCalls : Nat

/-- `extract_claims`, instrumented.  The client is constructed first
(line 74, outside the `try`), the document truncated, the prompt sent;
a non-list parse result is wrapped in a singleton list; JSON parse
failure and completion failure surface as distinct `ValueError`s. -/
def extract_claimsI (env : Env) (document_text : Str) : ExtractRun :=
  match get_openai_client env with
  | .error e => ⟨.error e, 0⟩
  | .ok _ =>
    let doc := truncateDoc document_text
    match env.judge env.modelName (fmtExtractionPrompt doc) with
    | .error e => ⟨.error (S "Claim extraction failed: " ++ e), 1⟩
    | .ok raw =>
      match parseJson (normalizeResponse raw) with
      | none => ⟨.error (S "Failed to parse LLM response as JSON: " ++ jsonDecodeMsg), 1⟩
      | some (.arr xs) => ⟨.ok xs, 1⟩
      | some v => ⟨.ok [v], 1⟩

/-- `extract_claims(document_text)`, result only. -/
def extract_claims (env : Env) (document_text : Str) : Except Str (List JsonVal) :=
  (extract_claimsI env document_text).result

/-! ## Verification Orchestrator (`fact_verifier.py` 201-222) -/

/-- A progress callback; `Except.error` models the callback raising. -/
def Callback := Nat → Nat → Str → Except Str Unit

/-- The preview expression `claim.get("claim", "")[:50] + "..."` on a
dict claim; slicing a non-string value and concatenating `"..."` raises. -/
def claimPreviewDict (c : PyDict) : Except Str Str :=
  match pyGet c (S "claim") (jstr "") with
  | .str s => .ok (s.take 50 ++ S "...")
  | _ => .error typeErrorMsg

/-- The preview expression, evaluated only when a callback is present;
`.get` on a non-dict claim raises. -/
def claimPreview (claim : JsonVal) : Except Str Str :=
  match claim with
  | .obj c => claimPreviewDict c
  | _ => .error attrErrorMsg

/-- The `if progress_callback: progress_callback(i, total, preview)` step
(lines 216-217): no callback means nothing runs; with a callback the
preview expression is evaluated and the callback invoked, either of which
may raise.  The invocation is not wrapped in any `try`. -/
def callbackRun (f : Callback) (i total : Nat) (c : JsonVal) : Except Str Unit :=
  match claimPreview c with
  | .error e => .error e
  | .ok p => f i total p

/-- Dispatch on `if progress_callback:`. -/
def callbackStep (cb : Option Callback) (i total : Nat) (c : JsonVal) : Except Str Unit :=
  match cb with
  | none => .ok ()
  | some f => callbackRun f i total c

/-- The `for i, claim in enumerate(claims)` loop of `verify_all_claims`,
instrumented with the total network-call count.  A raising callback
propagates and aborts the loop, as does an exception from `verify_claim`. -/
def verify_all_goI (env : Env) (cb : Option Callback) (total : Nat) :
    Nat → List JsonVal → Except Str (List PyDict) × Nat
  | _, [] => (.ok [], 0)
  | i, c :: cs =>
    match callbackStep cb i total c with
    | .error e => (.error e, 0)
    | .ok _ =>
      match (verify_claimI env c).result with
      | .error e => (.error e, (verify_claimI env c).judgeCalls + (verify_claimI env c).searchCalls)
      | .ok d =>
        match verify_all_goI env cb total (i + 1) cs with
        | (.error e, n) =>
          (.error e, (verify_claimI env c).judgeCalls + (verify_claimI env c).searchCalls + n)
        | (.ok ds, n) =>
          (.ok (d :: ds), (verify_claimI env c).judgeCalls + (verify_claimI env c).searchCalls + n)

/-- `verify_all_claims(claims, progress_callback)`, instrumented. -/
def verify_all_claimsI (env : Env) (claims : List JsonVal) (cb : Option Callback) :
    Except Str (List PyDict) × Nat :=
  verify_all_goI env cb claims.length 0 claims

/-- `verify_all_claims(claims, progress_callback)`, result only. -/
def verify_all_claims (env : Env) (claims : List JsonVal) (cb : Option Callback) :
    Except Str (List PyDict) :=
  (verify_all_claimsI env claims cb).1

/-! ## Presentation layer (`app.py`) -/

/-- `x.get("status", "")` on a verdict dict. -/
def statusValOf (d : PyDict) : JsonVal := pyGet d (S "status") (jstr "")

/-- `priority_order = {"False": 0, "Inaccurate": 1, "Unverifiable": 2,
"Verified": 3}` with `.get(status, 4)`. -/
def keyOfStatusStr (s : Str) : Nat :=
  if s = S "False" then 0
  else if s = S "Inaccurate" then 1
  else if s = S "Unverifiable" then 2
  else if s = S "Verified" then 3
  else 4

/-- The sort-key expression `priority_order.get(x.get("status", ""), 4)`
of `app.py` line 373, which can raise: a string status indexes the dict
(default 4 when not among the four keys); `None`, booleans and numbers
are hashable, miss the dict and give the default 4; a JSON array or
object is an unhashable Python list/dict, so `dict.get` raises
`TypeError`. -/
def pyKey (d : PyDict) : Except Str Nat :=
  match statusValOf d with
  | .str s => .ok (keyOfStatusStr s)
  | .null => .ok 4
  | .bool _ => .ok 4
  | .num _ _ => .ok 4
  | .arr _ => .error typeErrorMsg
  | .obj _ => .error typeErrorMsg

/-- Comparison of key-decorated verdicts by their severity key. -/
def sevLE (a b : Nat × PyDict) : Prop := a.1 ≤ b.1

instance : DecidableRel sevLE := fun a b => Nat.decLe a.1 b.1

/-- `sorted` evaluates the key function on every element, in list order,
before any comparison; the first raising key call aborts the sort. -/
def computeKeys : List PyDict → Except Str (List (Nat × PyDict))
  | [] => .ok []
  | d :: ds =>
    match pyKey d with
    | .error e => .error e
    | .ok k =>
      match computeKeys ds with
      | .error e => .error e
      | .ok rest => .ok ((k, d) :: rest)

/-- `sorted(results, key=lambda x: priority_order.get(x.get("status", ""), 4))`:
decorate every verdict with its key (raising `TypeError` on an
unhashable status, which aborts the handler at `app.py` 373),
stable-sort the decorated list by key, undecorate.  Python's `sorted` is
stable; insertion sort with `≤` on the key places each element before
all later-input elements of equal key, which is exactly a stable sort by
this key. -/
def pySorted (rs : List PyDict) : Except Str (List PyDict) :=
  match computeKeys rs with
  | .error e => .error e
  | .ok kds => .ok ((List.insertionSort sevLE kds).map Prod.snd)

/-- `str(results)` as used for the download payload (`app.py` 383). -/
def downloadPayload (results : List PyDict) : Str :=
  pyReprVal (.arr (results.map .obj))

/-- The `st.error` text of the credential gate (`app.py` 326). -/
def cfgErrorMsg : Str := S "⚠️ Please configure API keys in Streamlit secrets to use this app."

/-- The `st.info` text of the credential gate (`app.py` 327). -/
def cfgInfoMsg : Str := S "Add OPENROUTER_API_KEY and TAVILY_API_KEY to your secrets.toml file or Streamlit Cloud secrets."

/-- What the analyze-button handler surfaces. -/
inductive AnalyzeOutcome : Type where
  | configError (errorMsg infoMsg : Str)
  | failed (msg : Str)
  | completed (results : List PyDict)

/-- The analyze-button handler (`app.py` 321-359): the credential gate
checks both secrets before any processing; then PDF text extraction (an
external collaborator, its outcome passed in), claim extraction and batch
verification run inside one `try`, any escaping exception becoming the
"An error occurred" banner.  The second component counts network calls
actually made. -/
def analyzeHandler (env : Env) (docText : Except Str Str) (cb : Option Callback) :
    AnalyzeOutcome × Nat :=
  if env.openrouterKey = [] ∨ env.tavilyKey = [] then
    (.configError cfgErrorMsg cfgInfoMsg, 0)
  else
    match docText with
    | .error e => (.failed (S "An error occurred: " ++ e), 0)
    | .ok text =>
      let er := extract_claimsI env text
      match er.result with
      | .error e => (.failed (S "An error occurred: " ++ e), er.judgeCalls)
      | .ok claims =>
        let (vres, n) := verify_all_claimsI env claims cb
        match vres with
        | .error e => (.failed (S "An error occurred: " ++ e), er.judgeCalls + n)
        | .ok results => (.completed results, er.judgeCalls + n)

/-! ## Field accessors on verdict dicts -/

/-- The `status` field of a verdict dict, if present. -/
def statusOf (d : PyDict) : Option JsonVal := fieldOf d (S "status")

/-- The `confidence` field of a verdict dict, if present. -/
def confOf (d : PyDict) : Option JsonVal := fieldOf d (S "confidence")

/-- The `explanation` field of a verdict dict, if present. -/
def explOf (d : PyDict) : Option JsonVal := fieldOf d (S "explanation")

/-- The `correct_information` field of a verdict dict, if present. -/
def correctInfoOf (d : PyDict) : Option JsonVal := fieldOf d (S "correct_information")

/-- The `sources` field of a verdict dict, if present. -/
def sourcesOf (d : PyDict) : Option JsonVal := fieldOf d (S "sources")

/-! ## Shared facts about `verify_claim`'s branches -/

theorem statusOf_failVerdict (c : PyDict) (e : Str) :
    statusOf (failVerdict c e) = some (jstr "Unverifiable") := rfl

theorem confOf_failVerdict (c : PyDict) (e : Str) :
    confOf (failVerdict c e) = some (.num 0 true) := rfl

theorem explOf_failVerdict (c : PyDict) (e : Str) :
    explOf (failVerdict c e) = some (.str e) := rfl

theorem correctInfoOf_failVerdict (c : PyDict) (e : Str) :
    correctInfoOf (failVerdict c e) = some (jstr "") := rfl

theorem sourcesOf_failVerdict (c : PyDict) (e : Str) :
    sourcesOf (failVerdict c e) = some (.arr []) := rfl

theorem get_openai_client_ok {env : Env} (hk : env.openrouterKey ≠ []) :
    get_openai_client env = .ok () := by
  simp [get_openai_client, hk]

theorem search_webI_eta (env : Env) (q : JsonVal) :
    search_webI env q = (search_web env q, (search_webI env q).2) := rfl

theorem verify_claimI_obj (env : Env) (c : PyDict) :
    verify_claimI env (.obj c) = verify_claimDict env c := rfl

theorem verify_claimDict_search_error (env : Env) (c : PyDict) (e : Str) (sc : Nat)
    (h : search_webI env (queryOf c) = (.error e, sc)) :
    verify_claimDict env c =
      ⟨.ok (failVerdict c (S "Could not search web: " ++ e)), 0, sc⟩ := by
  unfold verify_claimDict
  rw [h]

theorem verify_claimDict_search_ok (env : Env) (c : PyDict) (sr : SearchResponse)
    (sc : Nat) (h : search_webI env (queryOf c) = (.ok sr, sc)) :
    verify_claimDict env c = verify_judgeStep env c sr sc := by
  unfold verify_claimDict
  rw [h]

theorem verify_judgeStep_error (env : Env) (c : PyDict) (sr : SearchResponse)
    (sc : Nat) (e : Str)
    (hk : env.openrouterKey ≠ [])
    (h2 : env.judge env.modelName (verificationPromptOf c sr) = .error e) :
    verify_judgeStep env c sr sc =
      ⟨.ok (failVerdict c (S "Verification analysis failed: " ++ e)), 1, sc⟩ := by
  unfold verify_judgeStep
  rw [get_openai_client_ok hk, h2]

theorem verify_judgeStep_ok (env : Env) (c : PyDict) (sr : SearchResponse)
    (sc : Nat) (raw : Str)
    (hk : env.openrouterKey ≠ [])
    (h2 : env.judge env.modelName (verificationPromptOf c sr) = .ok raw) :
    verify_judgeStep env c sr sc = verify_parseStep env c raw sc := by
  unfold verify_judgeStep
  rw [get_openai_client_ok hk, h2]

theorem verify_parseStep_none (env : Env) (c : PyDict) (raw : Str) (sc : Nat)
    (h3 : parseJson (normalizeResponse raw) = none) :
    verify_parseStep env c raw sc =
      ⟨.ok (failVerdict c (S "Verification analysis failed: " ++ jsonDecodeMsg)), 1, sc⟩ := by
  unfold verify_parseStep
  rw [h3]

theorem verify_parseStep_obj (env : Env) (c : PyDict) (raw : Str) (sc : Nat)
    (fields : PyDict)
    (h3 : parseJson (normalizeResponse raw) = some (.obj fields)) :
    verify_parseStep env c raw sc =
      ⟨.ok (assocSet (assocSet fields (S "claim") (claimTextOf c))
          (S "category") (categoryOf c)), 1, sc⟩ := by
  unfold verify_parseStep
  rw [h3]

/-- Every outcome of the parse step is a returned verdict, never an
exception. -/
theorem verify_parseStep_total (env : Env) (c : PyDict) (raw : Str) (sc : Nat) :
    ∃ d, (verify_parseStep env c raw sc).result = .ok d := by
  unfold verify_parseStep
  cases hp : parseJson (normalizeResponse raw) with
  | none => exact ⟨_, rfl⟩
  | some v => cases v <;> exact ⟨_, rfl⟩

/-- With the judgment credential configured, every branch of
`verify_claim` on a claim dict returns a verdict dict. -/
theorem verify_claim_total (env : Env) (c : PyDict) (hk : env.openrouterKey ≠ []) :
    ∃ d, verify_claim env (.obj c) = .ok d := by
  rw [verify_claim, verify_claimI_obj]
  rcases hsw : search_webI env (queryOf c) with ⟨r, sc⟩
  cases r with
  | error e =>
    rw [verify_claimDict_search_error env c e sc hsw]
    exact ⟨_, rfl⟩
  | ok sr =>
    rw [verify_claimDict_search_ok env c sr sc hsw]
    cases hj : env.judge env.modelName (verificationPromptOf c sr) with
    | error e => exact ⟨_, by rw [verify_judgeStep_error env c sr sc e hk hj]⟩
    | ok raw =>
      rw [verify_judgeStep_ok env c sr sc raw hk hj]
      exact verify_parseStep_total env c raw sc

/-! ## Concrete inputs for witnesses and counterexamples -/

/-- A concrete claim dict. -/
def cW : PyDict := [(S "claim", jstr "water boils at 100C"), (S "category", jstr "Scientific")]

/-- A concrete search response. -/
def srW : SearchResponse :=
  ⟨some (S "summary"), [⟨some (S "http://a"), some (S "T"), some (S "C")⟩]⟩

/-- Environment whose search provider raises. -/
def envSearchFail : Env :=
  ⟨S "tkey", S "okey", S "model", fun _ => .error (S "timeout"), fun _ _ => .ok (S "\x7b\x7d")⟩

/-- Environment with a working search but no judgment credential. -/
def envNoJudgeKey : Env :=
  ⟨S "tkey", [], S "model", fun _ => .ok srW, fun _ _ => .ok (S "\x7b\x7d")⟩

/-- Environment whose model answers with an out-of-enumeration status and
an out-of-range confidence. -/
def envBanana : Env :=
  ⟨S "tkey", S "okey", S "model", fun _ => .ok srW,
    fun _ _ => .ok (S "\x7b\"status\": \"Banana\", \"confidence\": 3.0\x7d")⟩

/-- Environment whose model answers with a well-formed verdict. -/
def envGood : Env :=
  ⟨S "tkey", S "okey", S "model", fun _ => .ok srW,
    fun _ _ => .ok (S "\x7b\"status\": \"Verified\", \"confidence\": 0.9\x7d")⟩

/-! ## C8: document truncation -/

/-- C8: `extract_claims` truncates document text longer than 50,000
characters to its first 50,000 characters and appends the truncation
marker before the prompt is built (so the prompt contains the marker);
text of at most 50,000 characters is embedded unmodified. -/
theorem extraction_truncation (doc : Str) :
    (doc.length > 50000 →
      truncateDoc doc = doc.take 50000 ++ truncationMarker ∧
      truncationMarker <:+: fmtExtractionPrompt (truncateDoc doc)) ∧
    (doc.length ≤ 50000 → truncateDoc doc = doc) := by
  constructor
  · intro h
    have ht : truncateDoc doc = doc.take 50000 ++ truncationMarker := by
      simp [truncateDoc, h]
    refine ⟨ht, ?_⟩
    rw [fmtExtractionPrompt, ht]
    exact ⟨EP1 ++ doc.take 50000, EP2, by simp [List.append_assoc]⟩
  · intro h
    simp [truncateDoc, Nat.not_lt.mpr h]

/-- Witness for C8 at a 50,001-character document and a short one. -/
theorem extraction_truncation_witness :
    truncateDoc (List.replicate 50001 'a') =
      List.replicate 50000 'a' ++ truncationMarker ∧
    truncateDoc (S "short") = S "short" := by
  constructor
  · have h := (extraction_truncation (List.replicate 50001 'a')).1
      (by rw [List.length_replicate]; norm_num)
    rw [h.1, List.take_replicate]
    norm_num
  · exact (extraction_truncation (S "short")).2 (by decide)

/-! ## C3: search failure short-circuits before any judgment call -/

/-- C3: when the web-search step fails, `verify_claim` returns the
Unverifiable verdict with confidence 0.0, empty `correct_information`
and empty `sources`, and performs no judgment-gateway call. -/
theorem search_failure_short_circuit (env : Env) (c : PyDict) (e : Str)
    (h : search_web env (queryOf c) = .error e) :
    verify_claim env (.obj c) =
      .ok (failVerdict c (S "Could not search web: " ++ e)) ∧
    (verify_claimI env (.obj c)).judgeCalls = 0 ∧
    statusOf (failVerdict c (S "Could not search web: " ++ e)) = some (jstr "Unverifiable") ∧
    confOf (failVerdict c (S "Could not search web: " ++ e)) = some (.num 0 true) ∧
    correctInfoOf (failVerdict c (S "Could not search web: " ++ e)) = some (jstr "") ∧
    sourcesOf (failVerdict c (S "Could not search web: " ++ e)) = some (.arr []) := by
  have hp : search_webI env (queryOf c) = (.error e, (search_webI env (queryOf c)).2) := by
    rw [search_webI_eta env (queryOf c), h]
  have hv := verify_claimDict_search_error env c e _ hp
  exact ⟨by rw [verify_claim, verify_claimI_obj, hv], by rw [verify_claimI_obj, hv], rfl, rfl,
    rfl, rfl⟩

/-- Witness for C3 in the concrete environment whose provider times out. -/
theorem search_failure_short_circuit_witness :
    verify_claim envSearchFail (.obj cW) =
      .ok (failVerdict cW (S "Could not search web: Web search failed: timeout")) ∧
    (verify_claimI envSearchFail (.obj cW)).judgeCalls = 0 := by
  have h := search_failure_short_circuit envSearchFail cW
    (S "Web search failed: timeout") rfl
  exact ⟨h.1, h.2.1⟩

/-! ## C1 (corrected): error isolation in `verify_claim` -/

/-- C1, amended: with the judgment credential configured, `verify_claim`
never raises — search failures, judgment-call failures and response-parse
failures each produce exactly the Unverifiable verdict with confidence
0.0 and the failure reason in `explanation`.  (The unamended claim is
false: a judgment-gateway construction failure — missing
`OPENROUTER_API_KEY` — escapes `verify_claim`, see the counterexample.) -/
theorem verify_claim_error_isolation (env : Env) (c : PyDict)
    (hk : env.openrouterKey ≠ []) :
    (∃ d, verify_claim env (.obj c) = .ok d) ∧
    (∀ e, search_web env (queryOf c) = .error e →
      verify_claim env (.obj c) = .ok (failVerdict c (S "Could not search web: " ++ e))) ∧
    (∀ sr e, search_webI env (queryOf c) = (.ok sr, (search_webI env (queryOf c)).2) →
      env.judge env.modelName (verificationPromptOf c sr) = .error e →
      verify_claim env (.obj c) =
        .ok (failVerdict c (S "Verification analysis failed: " ++ e))) ∧
    (∀ sr raw, search_webI env (queryOf c) = (.ok sr, (search_webI env (queryOf c)).2) →
      env.judge env.modelName (verificationPromptOf c sr) = .ok raw →
      parseJson (normalizeResponse raw) = none →
      verify_claim env (.obj c) =
        .ok (failVerdict c (S "Verification analysis failed: " ++ jsonDecodeMsg))) ∧
    (∀ e, statusOf (failVerdict c e) = some (jstr "Unverifiable") ∧
      confOf (failVerdict c e) = some (.num 0 true) ∧
      explOf (failVerdict c e) = some (.str e)) := by
  refine ⟨verify_claim_total env c hk, ?_, ?_, ?_, fun e => ⟨rfl, rfl, rfl⟩⟩
  · intro e h
    have hp : search_webI env (queryOf c) = (.error e, (search_webI env (queryOf c)).2) := by
      rw [search_webI_eta env (queryOf c), h]
    rw [verify_claim, verify_claimI_obj, verify_claimDict_search_error env c e _ hp]
  · intro sr e h1 h2
    rw [verify_claim, verify_claimI_obj, verify_claimDict_search_ok env c sr _ h1,
      verify_judgeStep_error env c sr _ e hk h2]
  · intro sr raw h1 h2 h3
    rw [verify_claim, verify_claimI_obj, verify_claimDict_search_ok env c sr _ h1,
      verify_judgeStep_ok env c sr _ raw hk h2, verify_parseStep_none env c raw _ h3]

/-- Witness for C1's amended statement in the concrete working
environment. -/
theorem verify_claim_error_isolation_witness :
    ∃ d, verify_claim envGood (.obj cW) = Except.ok d :=
  (verify_claim_error_isolation envGood cW (by decide)).1

/-- C1 counterexample: with the search succeeding but the judgment
credential missing, `verify_claim` raises the client-construction
`ValueError` to its caller instead of returning an Unverifiable verdict
(`get_openai_client()` at line 152 sits outside both `try` blocks). -/
theorem verify_claim_raises_counterexample :
    verify_claim envNoJudgeKey (.obj cW) =
      .error (S "API key not found in secrets. Please configure OPENROUTER_API_KEY.") := rfl

/-! ## C9 (corrected): verdict status and confidence are not validated -/

/-- Does a JSON value have object shape? -/
def isObjVal : JsonVal → Bool
  | .obj _ => true
  | _ => false

theorem openrouterKey_ne_of_client_ok {env : Env} {u : Unit}
    (h : get_openai_client env = .ok u) : env.openrouterKey ≠ [] := by
  intro hk
  simp [get_openai_client, hk] at h

theorem verify_judgeStep_client_error (env : Env) (c : PyDict) (sr : SearchResponse)
    (sc : Nat) (e : Str) (h : get_openai_client env = .error e) :
    verify_judgeStep env c sr sc = ⟨.error e, 0, sc⟩ := by
  unfold verify_judgeStep
  rw [h]

theorem verify_parseStep_some_nonobj (env : Env) (c : PyDict) (raw : Str) (sc : Nat)
    (v : JsonVal) (h3 : parseJson (normalizeResponse raw) = some v)
    (hv : isObjVal v = false) :
    verify_parseStep env c raw sc =
      ⟨.ok (failVerdict c (S "Verification analysis failed: " ++ typeErrorMsg)), 1, sc⟩ := by
  unfold verify_parseStep
  rw [h3]
  cases v with
  | obj fs => simp [isObjVal] at hv
  | null => rfl
  | bool b => rfl
  | num q f => rfl
  | str s => rfl
  | arr xs => rfl

/-- C9, amended: every verdict returned by `verify_claim` either comes
from a failure branch — status `Unverifiable` and confidence 0.0 — or is
the model's parsed response with only `claim`/`category` overwritten: its
`status` and `confidence` are whatever the model produced, unvalidated.
(The unamended claim — status always among the four enumerated values and
confidence in [0,1] — is false, see the counterexample.) -/
theorem verdict_fields_unvalidated (env : Env) (c : PyDict) (d : PyDict)
    (h : verify_claim env (.obj c) = .ok d) :
    (statusOf d = some (jstr "Unverifiable") ∧ confOf d = some (.num 0 true)) ∨
    (∃ sr raw fields, env.judge env.modelName (verificationPromptOf c sr) = .ok raw ∧
      parseJson (normalizeResponse raw) = some (.obj fields) ∧
      d = assocSet (assocSet fields (S "claim") (claimTextOf c))
        (S "category") (categoryOf c)) := by
  rw [verify_claim, verify_claimI_obj] at h
  rcases hsw : search_webI env (queryOf c) with ⟨r, sc⟩
  cases r with
  | error e =>
    rw [verify_claimDict_search_error env c e sc hsw] at h
    have h' : Except.ok (failVerdict c (S "Could not search web: " ++ e)) = Except.ok d := h
    cases h'
    exact Or.inl ⟨rfl, rfl⟩
  | ok sr =>
    rw [verify_claimDict_search_ok env c sr sc hsw] at h
    cases hoc : get_openai_client env with
    | error e =>
      rw [verify_judgeStep_client_error env c sr sc e hoc] at h
      exact absurd h (by simp)
    | ok u =>
      have hk := openrouterKey_ne_of_client_ok hoc
      cases hj : env.judge env.modelName (verificationPromptOf c sr) with
      | error e =>
        rw [verify_judgeStep_error env c sr sc e hk hj] at h
        have h' : Except.ok (failVerdict c (S "Verification analysis failed: " ++ e)) =
          Except.ok d := h
        cases h'
        exact Or.inl ⟨rfl, rfl⟩
      | ok raw =>
        rw [verify_judgeStep_ok env c sr sc raw hk hj] at h
        cases hp : parseJson (normalizeResponse raw) with
        | none =>
          rw [verify_parseStep_none env c raw sc hp] at h
          have h' : Except.ok (failVerdict c (S "Verification analysis failed: " ++
            jsonDecodeMsg)) = Except.ok d := h
          cases h'
          exact Or.inl ⟨rfl, rfl⟩
        | some v =>
          cases hobj : isObjVal v with
          | false =>
            rw [verify_parseStep_some_nonobj env c raw sc v hp hobj] at h
            have h' : Except.ok (failVerdict c (S "Verification analysis failed: " ++
              typeErrorMsg)) = Except.ok d := h
            cases h'
            exact Or.inl ⟨rfl, rfl⟩
          | true =>
            cases v with
            | obj fields =>
              rw [verify_parseStep_obj env c raw sc fields hp] at h
              have h' : Except.ok (assocSet (assocSet fields (S "claim") (claimTextOf c))
                (S "category") (categoryOf c)) = Except.ok d := h
              cases h'
              exact Or.inr ⟨sr, raw, fields, hj, hp, rfl⟩
            | null => simp [isObjVal] at hobj
            | bool b => simp [isObjVal] at hobj
            | num q f => simp [isObjVal] at hobj
            | str s => simp [isObjVal] at hobj
            | arr xs => simp [isObjVal] at hobj

set_option maxRecDepth 100000 in
unseal Rat.add Rat.sub Rat.mul Rat.inv in
/-- Witness for C9's amended statement: the Banana environment does
return a verdict, and it lands in the unvalidated-model-output branch. -/
theorem verdict_fields_unvalidated_witness :
    (statusOf [(S "status", jstr "Banana"), (S "confidence", .num 3 true),
        (S "claim", jstr "water boils at 100C"), (S "category", jstr "Scientific")] =
          some (jstr "Unverifiable") ∧
      confOf [(S "status", jstr "Banana"), (S "confidence", .num 3 true),
        (S "claim", jstr "water boils at 100C"), (S "category", jstr "Scientific")] =
          some (.num 0 true)) ∨
    (∃ sr raw fields,
      envBanana.judge envBanana.modelName (verificationPromptOf cW sr) = .ok raw ∧
      parseJson (normalizeResponse raw) = some (.obj fields) ∧
      [(S "status", jstr "Banana"), (S "confidence", .num 3 true),
        (S "claim", jstr "water boils at 100C"), (S "category", jstr "Scientific")] =
        assocSet (assocSet fields (S "claim") (claimTextOf cW))
          (S "category") (categoryOf cW)) :=
  verdict_fields_unvalidated envBanana cW _ rfl

set_option maxRecDepth 100000 in
unseal Rat.add Rat.sub Rat.mul Rat.inv in
/-- C9 counterexample: the model's `status`/`confidence` pass through
unvalidated — here `verify_claim` returns status `"Banana"` (outside the
four enumerated values) and confidence 3.0 (outside [0,1]). -/
theorem verdict_status_outside_enumeration :
    verify_claim envBanana (.obj cW) =
      .ok [(S "status", jstr "Banana"), (S "confidence", .num 3 true),
        (S "claim", jstr "water boils at 100C"), (S "category", jstr "Scientific")] ∧
    statusOf [(S "status", jstr "Banana"), (S "confidence", .num 3 true),
        (S "claim", jstr "water boils at 100C"), (S "category", jstr "Scientific")] =
      some (.str (S "Banana")) ∧
    S "Banana" ∉ [S "Verified", S "Inaccurate", S "False", S "Unverifiable"] ∧
    confOf [(S "status", jstr "Banana"), (S "confidence", .num 3 true),
        (S "claim", jstr "water boils at 100C"), (S "category", jstr "Scientific")] =
      some (.num 3 true) ∧
    ¬ ((3 : ℚ) ≤ 1) :=
  ⟨rfl, rfl, by decide, rfl, by norm_num⟩

/-! ## C2: the orchestrator is length- and order-preserving -/

theorem callbackStep_none (i total : Nat) (c : JsonVal) :
    callbackStep none i total c = .ok () := rfl

theorem verify_all_goI_cons_cb_error (env : Env) (cb : Option Callback)
    (total i : Nat) (c : JsonVal) (cs : List JsonVal) (e : Str)
    (hcb : callbackStep cb i total c = .error e) :
    verify_all_goI env cb total i (c :: cs) = (.error e, 0) := by
  unfold verify_all_goI
  rw [hcb]

theorem verify_all_goI_cons_claim_error (env : Env) (cb : Option Callback)
    (total i : Nat) (c : JsonVal) (cs : List JsonVal) (e : Str)
    (hcb : callbackStep cb i total c = .ok ())
    (hr : (verify_claimI env c).result = .error e) :
    verify_all_goI env cb total i (c :: cs) =
      (.error e, (verify_claimI env c).judgeCalls + (verify_claimI env c).searchCalls) := by
  unfold verify_all_goI
  rw [hcb, hr]

theorem verify_all_goI_cons_ok (env : Env) (cb : Option Callback)
    (total i : Nat) (c : JsonVal) (cs : List JsonVal) (d : PyDict)
    (ds : List PyDict) (n : Nat)
    (hcb : callbackStep cb i total c = .ok ())
    (hr : (verify_claimI env c).result = .ok d)
    (hrest : verify_all_goI env cb total (i + 1) cs = (.ok ds, n)) :
    verify_all_goI env cb total i (c :: cs) =
      (.ok (d :: ds),
        (verify_claimI env c).judgeCalls + (verify_claimI env c).searchCalls + n) := by
  unfold verify_all_goI
  rw [hcb, hr, hrest]

theorem verify_all_goI_cons_rest_error (env : Env) (cb : Option Callback)
    (total i : Nat) (c : JsonVal) (cs : List JsonVal) (d : PyDict) (e : Str) (n : Nat)
    (hcb : callbackStep cb i total c = .ok ())
    (hr : (verify_claimI env c).result = .ok d)
    (hrest : verify_all_goI env cb total (i + 1) cs = (.error e, n)) :
    verify_all_goI env cb total i (c :: cs) =
      (.error e,
        (verify_claimI env c).judgeCalls + (verify_claimI env c).searchCalls + n) := by
  unfold verify_all_goI
  rw [hcb, hr, hrest]

/-- Any successful loop run yields one verdict per claim, in order. -/
theorem verify_all_goI_sound (env : Env) (cb : Option Callback) (total : Nat) :
    ∀ (cs : List JsonVal) (i : Nat) (rs : List PyDict),
      (verify_all_goI env cb total i cs).1 = .ok rs →
      rs.length = cs.length ∧
      ∀ j c, cs.get? j = some c → ∃ r, verify_claim env c = .ok r ∧ rs.get? j = some r := by
  intro cs
  induction cs with
  | nil =>
    intro i rs h
    have h' : Except.ok ([] : List PyDict) = Except.ok rs := h
    cases h'
    exact ⟨rfl, by intro j c hj; simp at hj⟩
  | cons c cs ih =>
    intro i rs h
    cases hcb : callbackStep cb i total c with
    | error e =>
      rw [verify_all_goI_cons_cb_error env cb total i c cs e hcb] at h
      exact absurd h (by simp)
    | ok u =>
      cases u
      cases hr : (verify_claimI env c).result with
      | error e =>
        rw [verify_all_goI_cons_claim_error env cb total i c cs e hcb hr] at h
        exact absurd h (by simp)
      | ok d =>
        rcases hrest : verify_all_goI env cb total (i + 1) cs with ⟨res, n⟩
        cases res with
        | error e =>
          rw [verify_all_goI_cons_rest_error env cb total i c cs d e n hcb hr hrest] at h
          exact absurd h (by simp)
        | ok ds =>
          rw [verify_all_goI_cons_ok env cb total i c cs d ds n hcb hr hrest] at h
          have h' : Except.ok (d :: ds) = Except.ok rs := h
          cases h'
          have hds : (verify_all_goI env cb total (i + 1) cs).1 = .ok ds := by
            rw [hrest]
          obtain ⟨hlen, hidx⟩ := ih (i + 1) ds hds
          refine ⟨by simp [hlen], ?_⟩
          intro j cj hj
          cases j with
          | zero =>
            have hc : c = cj := by simpa using hj
            subst hc
            exact ⟨d, hr, rfl⟩
          | succ j' =>
            have hj' : cs.get? j' = some cj := by simpa using hj
            obtain ⟨r, hvr, hrr⟩ := hidx j' cj hj'
            exact ⟨r, hvr, by simpa using hrr⟩

/-- With the judgment credential configured and dict-shaped claims, the
loop (with no callback) completes. -/
theorem verify_all_goI_total (env : Env) (total : Nat) (hk : env.openrouterKey ≠ []) :
    ∀ (cs : List JsonVal), (∀ cl ∈ cs, ∃ c : PyDict, cl = .obj c) →
      ∀ i, ∃ rs n, verify_all_goI env none total i cs = (.ok rs, n) := by
  intro cs
  induction cs with
  | nil => exact fun _ i => ⟨[], 0, rfl⟩
  | cons cl cs ih =>
    intro hd i
    obtain ⟨c, hc⟩ := hd cl (by simp)
    subst hc
    obtain ⟨d, hvd⟩ := verify_claim_total env c hk
    obtain ⟨ds, n, hrest⟩ := ih (fun x hx => hd x (by simp [hx])) (i + 1)
    exact ⟨d :: ds, _, verify_all_goI_cons_ok env none total i _ cs d ds n rfl hvd hrest⟩

/-- C2: for every list of N dict-shaped claims (and the judgment
credential configured so that no claim raises), `verify_all_claims`
returns exactly N verdicts, the i-th being `verify_claim` of the i-th
input claim — output order equals input order. -/
theorem verify_all_length_order (env : Env) (claims : List JsonVal)
    (hk : env.openrouterKey ≠ [])
    (hd : ∀ cl ∈ claims, ∃ c : PyDict, cl = .obj c) :
    ∃ rs, verify_all_claims env claims none = .ok rs ∧
      rs.length = claims.length ∧
      ∀ j cl, claims.get? j = some cl →
        ∃ r, verify_claim env cl = .ok r ∧ rs.get? j = some r := by
  obtain ⟨rs, n, hrun⟩ := verify_all_goI_total env claims.length hk claims hd 0
  have h1 : verify_all_claims env claims none = .ok rs := by
    rw [verify_all_claims, verify_all_claimsI, hrun]
  have h2 : (verify_all_goI env none claims.length 0 claims).1 = .ok rs := by
    rw [hrun]
  obtain ⟨hlen, hidx⟩ := verify_all_goI_sound env none claims.length claims 0 rs h2
  exact ⟨rs, h1, hlen, hidx⟩

/-- Witness for C2 on a concrete two-claim batch. -/
theorem verify_all_length_order_witness :
    ∃ rs, verify_all_claims envGood [JsonVal.obj cW, JsonVal.obj cW] none = .ok rs ∧
      rs.length = ([JsonVal.obj cW, JsonVal.obj cW] : List JsonVal).length ∧
      ∀ j cl, ([JsonVal.obj cW, JsonVal.obj cW] : List JsonVal).get? j = some cl →
        ∃ r, verify_claim envGood cl = .ok r ∧ rs.get? j = some r :=
  verify_all_length_order envGood [JsonVal.obj cW, JsonVal.obj cW] (by decide)
    (by intro cl hcl
        have h : cl = JsonVal.obj cW ∨ cl = JsonVal.obj cW := by simpa using hcl
        rcases h with h | h <;> exact ⟨cW, h⟩)

/-! ## C5 (corrected): a raising progress callback aborts the batch -/

/-- A callback that always raises. -/
def cbBoom : Callback := fun _ _ _ => .error (S "boom")

/-- A callback that never raises. -/
def cbOk : Callback := fun _ _ _ => .ok ()

/-- C5 counterexample: a callback that raises on its first invocation
makes `verify_all_claims` propagate the exception — no verdict list is
returned, refuting "a raising callback does not abort verification". -/
theorem callback_exception_aborts :
    verify_all_claims envGood [.obj cW] (some cbBoom) = .error (S "boom") := rfl

theorem claimPreview_obj_str (c : PyDict) (s : Str)
    (hms : pyGet c (S "claim") (jstr "") = .str s) :
    claimPreview (.obj c) = .ok (s.take 50 ++ S "...") := by
  show claimPreviewDict c = _
  unfold claimPreviewDict
  rw [hms]

theorem claimPreview_nonobj (cl : JsonVal) (hno : isObjVal cl = false) :
    claimPreview cl = .error attrErrorMsg := by
  cases cl with
  | obj fs => simp [isObjVal] at hno
  | null => rfl
  | bool b => rfl
  | num q f => rfl
  | str s => rfl
  | arr xs => rfl

theorem verify_claimI_nonobj (env : Env) (cl : JsonVal) (hno : isObjVal cl = false) :
    verify_claimI env cl = ⟨.error attrErrorMsg, 0, 0⟩ := by
  cases cl with
  | obj fs => simp [isObjVal] at hno
  | null => rfl
  | bool b => rfl
  | num q f => rfl
  | str s => rfl
  | arr xs => rfl

theorem callbackStep_some_ok (f : Callback) (i total : Nat) (cl : JsonVal) (p : Str)
    (h1 : claimPreview cl = .ok p) (h2 : f i total p = .ok ()) :
    callbackStep (some f) i total cl = .ok () := by
  show callbackRun f i total cl = _
  unfold callbackRun
  rw [h1]
  exact h2

theorem callbackStep_some_error (f : Callback) (i total : Nat) (cl : JsonVal) (e : Str)
    (h1 : claimPreview cl = .error e) :
    callbackStep (some f) i total cl = .error e := by
  show callbackRun f i total cl = _
  unfold callbackRun
  rw [h1]

/-- A never-raising callback leaves the loop's verdicts unchanged. -/
theorem verify_all_goI_cb_irrelevant (env : Env) (f : Callback) (total : Nat)
    (hf : ∀ i t p, f i t p = Except.ok ()) :
    ∀ (cs : List JsonVal),
      (∀ cl ∈ cs, ∀ c : PyDict, cl = .obj c →
        ∃ s, pyGet c (S "claim") (jstr "") = .str s) →
      ∀ i, (verify_all_goI env (some f) total i cs).1 =
        (verify_all_goI env none total i cs).1 := by
  intro cs
  induction cs with
  | nil => exact fun _ _ => rfl
  | cons cl cs ih =>
    intro hs i
    have hs' : ∀ x ∈ cs, ∀ c : PyDict, x = .obj c →
        ∃ s, pyGet c (S "claim") (jstr "") = .str s :=
      fun x hx => hs x (by simp [hx])
    by_cases hobj : ∃ c : PyDict, cl = .obj c
    case neg =>
      have hno : isObjVal cl = false := by
        cases cl with
        | obj fs => exact absurd ⟨fs, rfl⟩ hobj
        | null => rfl
        | bool b => rfl
        | num q fl => rfl
        | str s => rfl
        | arr xs => rfl
      have hpre := claimPreview_nonobj cl hno
      rw [verify_all_goI_cons_cb_error env (some f) total i cl cs attrErrorMsg
        (callbackStep_some_error f i total cl attrErrorMsg hpre)]
      have hvc : (verify_claimI env cl).result = .error attrErrorMsg := by
        rw [verify_claimI_nonobj env cl hno]
      rw [verify_all_goI_cons_claim_error env none total i cl cs attrErrorMsg
        (callbackStep_none i total cl) hvc]
    case pos =>
      obtain ⟨c, hc⟩ := hobj
      subst hc
      obtain ⟨s, hms⟩ := hs (.obj c) (by simp) c rfl
      have hcb : callbackStep (some f) i total (.obj c) = .ok () :=
        callbackStep_some_ok f i total (.obj c) _ (claimPreview_obj_str c s hms) (hf _ _ _)
      cases hr : (verify_claimI env (.obj c)).result with
      | error e =>
        rw [verify_all_goI_cons_claim_error env (some f) total i _ cs e hcb hr,
          verify_all_goI_cons_claim_error env none total i _ cs e
            (callbackStep_none i total _) hr]
      | ok d =>
        rcases hrest1 : verify_all_goI env (some f) total (i + 1) cs with ⟨res1, n1⟩
        rcases hrest2 : verify_all_goI env none total (i + 1) cs with ⟨res2, n2⟩
        have hres : res1 = res2 := by
          have := ih hs' (i + 1)
          rw [hrest1, hrest2] at this
          exact this
        subst hres
        cases res1 with
        | error e =>
          rw [verify_all_goI_cons_rest_error env (some f) total i _ cs d e n1 hcb hr hrest1,
            verify_all_goI_cons_rest_error env none total i _ cs d e n2
              (callbackStep_none i total _) hr hrest2]
        | ok ds =>
          rw [verify_all_goI_cons_ok env (some f) total i _ cs d ds n1 hcb hr hrest1,
            verify_all_goI_cons_ok env none total i _ cs d ds n2
              (callbackStep_none i total _) hr hrest2]

/-- C5, amended: the callback's return value never affects verification —
if the callback never raises (and every claim's `claim` field is a string,
so the preview expression cannot raise), `verify_all_claims` returns the
same verdict list as with no callback at all; but a raising callback
aborts verification (see the counterexample). -/
theorem callback_no_effect_when_ok (env : Env) (claims : List JsonVal) (f : Callback)
    (hf : ∀ i t p, f i t p = Except.ok ())
    (hs : ∀ cl ∈ claims, ∀ c : PyDict, cl = .obj c →
      ∃ s, pyGet c (S "claim") (jstr "") = .str s) :
    verify_all_claims env claims (some f) = verify_all_claims env claims none := by
  rw [verify_all_claims, verify_all_claims, verify_all_claimsI, verify_all_claimsI]
  exact verify_all_goI_cb_irrelevant env f claims.length hf claims hs 0

/-- Witness for C5's amended statement: a concrete no-op callback leaves
the concrete batch's output unchanged. -/
theorem callback_no_effect_when_ok_witness :
    verify_all_claims envGood [.obj cW] (some cbOk) =
      verify_all_claims envGood [.obj cW] none :=
  callback_no_effect_when_ok envGood [.obj cW] cbOk (fun _ _ _ => rfl)
    (by intro cl hcl c hc
        have h1 : cl = JsonVal.obj cW := by simpa using hcl
        subst h1
        cases hc
        exact ⟨_, rfl⟩)

/-! ## C4: the credential gate fires before any network call -/

/-- Environment with both credentials missing. -/
def envNoKeys : Env :=
  ⟨[], [], S "model", fun _ => .error (S "unreachable"), fun _ _ => .error (S "unreachable")⟩

/-- C4: if either required credential is absent, the analyze handler
stops at the credential gate — a single configuration-error outcome whose
surfaced text names both `OPENROUTER_API_KEY` and `TAVILY_API_KEY` — and
zero network calls are made. -/
theorem missing_credentials_config_error (env : Env) (docText : Except Str Str)
    (cb : Option Callback) (h : env.openrouterKey = [] ∨ env.tavilyKey = []) :
    analyzeHandler env docText cb = (.configError cfgErrorMsg cfgInfoMsg, 0) ∧
    S "OPENROUTER_API_KEY" <:+: cfgErrorMsg ++ cfgInfoMsg ∧
    S "TAVILY_API_KEY" <:+: cfgErrorMsg ++ cfgInfoMsg := by
  refine ⟨?_, ?_, ?_⟩
  · unfold analyzeHandler
    rw [if_pos h]
  · exact ⟨cfgErrorMsg ++ S "Add ",
      S " and TAVILY_API_KEY to your secrets.toml file or Streamlit Cloud secrets.", rfl⟩
  · exact ⟨cfgErrorMsg ++ S "Add OPENROUTER_API_KEY and ",
      S " to your secrets.toml file or Streamlit Cloud secrets.", rfl⟩

/-- Witness for C4 with both credentials missing. -/
theorem missing_credentials_config_error_witness :
    analyzeHandler envNoKeys (.ok (S "doc")) none =
      (.configError cfgErrorMsg cfgInfoMsg, 0) :=
  (missing_credentials_config_error envNoKeys (.ok (S "doc")) none (Or.inl rfl)).1

/-! ## C6 (code bug): the download payload is not valid JSON -/

set_option maxRecDepth 100000 in
unseal Rat.add Rat.sub Rat.mul Rat.inv in
/-- C6 failing input: a batch whose single verdict is the search-failure
fallback.  `app.py` line 383 serializes it with `str(results)` — Python
repr with single-quoted strings — while declaring `application/json`; the
payload does not parse as JSON, so no parse-back can reproduce the list.
(The claim's round-trip property is what the code's own mime type and
`.json` filename promise.) -/
theorem download_payload_not_json :
    verify_all_claims envSearchFail [.obj cW] none =
      .ok [failVerdict cW (S "Could not search web: Web search failed: timeout")] ∧
    parseJson (downloadPayload
      [failVerdict cW (S "Could not search web: Web search failed: timeout")]) = none :=
  ⟨rfl, rfl⟩

/-! ## C10: the presentation-layer severity sort -/

/-- Does a verdict's `status` equal the given string? -/
def eqStatusStr (d : PyDict) (s : Str) : Bool :=
  match statusValOf d with
  | .str t => decide (t = s)
  | _ => false

theorem pyKey_of_eqStatusStr (d : PyDict) (s : Str)
    (h : eqStatusStr d s = true) : pyKey d = .ok (keyOfStatusStr s) := by
  unfold eqStatusStr at h
  unfold pyKey
  cases hs : statusValOf d with
  | str t =>
    rw [hs] at h
    have ht : t = s := of_decide_eq_true h
    rw [ht]
  | null => rw [hs] at h; exact absurd h (by simp)
  | bool b => rw [hs] at h; exact absurd h (by simp)
  | num q f => rw [hs] at h; exact absurd h (by simp)
  | arr xs => rw [hs] at h; exact absurd h (by simp)
  | obj fs => rw [hs] at h; exact absurd h (by simp)

theorem orderedInsert_filter_pos (q : Nat × PyDict → Bool) (k : Nat)
    (v : Nat × PyDict) (L : List (Nat × PyDict))
    (hv : q v = true) (hkv : v.1 = k)
    (hk : ∀ w ∈ L, q w = true → w.1 = k) :
    (List.orderedInsert sevLE v L).filter q = v :: L.filter q := by
  induction L with
  | nil => simp [List.orderedInsert, hv]
  | cons b L ih =>
    by_cases hr : sevLE v b
    · rw [List.orderedInsert, if_pos hr]
      simp [List.filter, hv]
    · rw [List.orderedInsert, if_neg hr]
      have hqb : q b = false := by
        cases hqb : q b with
        | false => rfl
        | true =>
          exact absurd (show sevLE v b from
            le_of_eq (hkv.trans (hk b (by simp) hqb).symm)) hr
      simp [List.filter, hqb, ih (fun w hw hqw => hk w (by simp [hw]) hqw)]

theorem orderedInsert_filter_neg (q : Nat × PyDict → Bool)
    (v : Nat × PyDict) (L : List (Nat × PyDict)) (hv : q v = false) :
    (List.orderedInsert sevLE v L).filter q = L.filter q := by
  induction L with
  | nil => simp [List.orderedInsert, hv]
  | cons b L ih =>
    by_cases hr : sevLE v b
    · rw [List.orderedInsert, if_pos hr]
      simp [List.filter, hv]
    · rw [List.orderedInsert, if_neg hr]
      simp [List.filter, ih]

/-- Stable insertion sort leaves any constant-key class in input order. -/
theorem insertionSort_filter_key_const (q : Nat × PyDict → Bool) (k : Nat) :
    ∀ kds : List (Nat × PyDict), (∀ x ∈ kds, q x = true → x.1 = k) →
      (List.insertionSort sevLE kds).filter q = kds.filter q := by
  intro kds
  induction kds with
  | nil => intro _; rfl
  | cons a kds ih =>
    intro hk
    show (List.orderedInsert sevLE a (List.insertionSort sevLE kds)).filter q = _
    cases hqa : q a with
    | true =>
      rw [orderedInsert_filter_pos q k a _ hqa (hk a (by simp) hqa)
        (fun w hw hqw =>
          hk w (List.mem_cons.mpr (Or.inr ((List.mem_insertionSort sevLE).mp hw))) hqw)]
      rw [ih (fun x hx hqx => hk x (by simp [hx]) hqx)]
      simp [List.filter, hqa]
    | false =>
      rw [orderedInsert_filter_neg q a _ hqa]
      rw [ih (fun x hx hqx => hk x (by simp [hx]) hqx)]
      simp [List.filter, hqa]

/-- A successful key decoration lists exactly the input verdicts, in
order, each tagged with its own key. -/
theorem computeKeys_sound : ∀ (rs : List PyDict) (kds : List (Nat × PyDict)),
    computeKeys rs = .ok kds →
    kds.map Prod.snd = rs ∧ ∀ kd ∈ kds, pyKey kd.2 = .ok kd.1 := by
  intro rs
  induction rs with
  | nil =>
    intro kds h
    have h' : Except.ok ([] : List (Nat × PyDict)) = Except.ok kds := h
    cases h'
    exact ⟨rfl, by simp⟩
  | cons d ds ih =>
    intro kds h
    cases hkd : pyKey d with
    | error e =>
      have hc : computeKeys (d :: ds) = .error e := by
        unfold computeKeys
        rw [hkd]
      rw [hc] at h
      exact absurd h (by simp)
    | ok k =>
      cases hcds : computeKeys ds with
      | error e =>
        have hc : computeKeys (d :: ds) = .error e := by
          unfold computeKeys
          rw [hkd, hcds]
        rw [hc] at h
        exact absurd h (by simp)
      | ok rest =>
        have hc : computeKeys (d :: ds) = .ok ((k, d) :: rest) := by
          unfold computeKeys
          rw [hkd, hcds]
        rw [hc] at h
        have h' : Except.ok ((k, d) :: rest) = Except.ok kds := h
        cases h'
        obtain ⟨hmap, hdec⟩ := ih rest hcds
        refine ⟨by simp [hmap], ?_⟩
        intro kd hkd'
        rcases List.mem_cons.mp hkd' with h | h
        · subst h
          exact hkd
        · exact hdec kd h

/-- Key decoration succeeds when every status is hashable. -/
theorem computeKeys_total : ∀ rs : List PyDict,
    (∀ d ∈ rs, ∃ k, pyKey d = .ok k) → ∃ kds, computeKeys rs = .ok kds := by
  intro rs
  induction rs with
  | nil => exact fun _ => ⟨[], rfl⟩
  | cons d ds ih =>
    intro hh
    obtain ⟨k, hk⟩ := hh d (by simp)
    obtain ⟨kds, hkds⟩ := ih (fun x hx => hh x (by simp [hx]))
    exact ⟨(k, d) :: kds, by unfold computeKeys; rw [hk, hkds]⟩

/-- C10, amended: for every verdict list all of whose `status` values
are hashable (strings — including a missing status defaulting to `""` —
`None`, booleans, numbers), the severity sort of `app.py` 371-373
produces a display list that is ordered by the priority key (False 0,
Inaccurate 1, Unverifiable 2, Verified 3, any other hashable status 4,
hence after all Verified verdicts), and any constant-key class — in
particular the verdicts of any one status — keeps its relative order
from the Verifier's output list.  (The unamended claim over every
verdict list is false: a verdict whose status is a JSON array or object
makes the key expression raise `TypeError` and the sort aborts with no
display list — see the counterexample.) -/
theorem severity_sort_stable_total (rs : List PyDict)
    (hh : ∀ d ∈ rs, ∃ k, pyKey d = .ok k) :
    ∃ out, pySorted rs = .ok out ∧
      List.Pairwise (fun a b => ∀ ka kb, pyKey a = .ok ka → pyKey b = .ok kb → ka ≤ kb) out ∧
      (∀ (p : PyDict → Bool) (k : Nat), (∀ d, p d = true → pyKey d = .ok k) →
        out.filter p = rs.filter p) ∧
      (∀ s : Str, out.filter (fun d => eqStatusStr d s) =
        rs.filter (fun d => eqStatusStr d s)) ∧
      keyOfStatusStr (S "False") = 0 ∧
      keyOfStatusStr (S "Inaccurate") = 1 ∧
      keyOfStatusStr (S "Unverifiable") = 2 ∧
      keyOfStatusStr (S "Verified") = 3 ∧
      (∀ s : Str, s ∉ [S "False", S "Inaccurate", S "Unverifiable", S "Verified"] →
        keyOfStatusStr s = 4) := by
  obtain ⟨kds, hkds⟩ := computeKeys_total rs hh
  obtain ⟨hmap, hdec⟩ := computeKeys_sound rs kds hkds
  have hps : pySorted rs = .ok ((List.insertionSort sevLE kds).map Prod.snd) := by
    unfold pySorted
    rw [hkds]
  have hfilter : ∀ (p : PyDict → Bool) (k : Nat), (∀ d, p d = true → pyKey d = .ok k) →
      ((List.insertionSort sevLE kds).map Prod.snd).filter p = rs.filter p := by
    intro p k hp
    have hside : ∀ x ∈ kds, (p ∘ Prod.snd) x = true → x.1 = k := by
      intro x hx hqx
      have h1 := hdec x hx
      have h2 := hp x.2 hqx
      exact Except.ok.inj (h1.symm.trans h2)
    rw [List.filter_map, insertionSort_filter_key_const (p ∘ Prod.snd) k kds hside,
      ← List.filter_map, hmap]
  refine ⟨_, hps, ?_, hfilter, ?_, rfl, rfl, rfl, rfl, ?_⟩
  · have hsorted : List.Pairwise sevLE (List.insertionSort sevLE kds) := by
      haveI : IsTotal (Nat × PyDict) sevLE := ⟨fun a b => Nat.le_total a.1 b.1⟩
      haveI : IsTrans (Nat × PyDict) sevLE := ⟨fun _ _ _ hab hbc => le_trans hab hbc⟩
      exact List.sorted_insertionSort sevLE kds
    rw [List.pairwise_map]
    refine hsorted.imp_of_mem ?_
    intro x y hx hy hxy ka kb hka hkb
    have hxk := hdec x ((List.mem_insertionSort sevLE).mp hx)
    have hyk := hdec y ((List.mem_insertionSort sevLE).mp hy)
    have h1 := hka.symm.trans hxk
    have h2 := hkb.symm.trans hyk
    injection h1 with h1
    injection h2 with h2
    rw [h1, h2]
    exact hxy
  · intro s
    exact hfilter (fun d => eqStatusStr d s) (keyOfStatusStr s)
      (fun d hd => pyKey_of_eqStatusStr d s hd)
  · intro s hs
    simp only [List.mem_cons, List.not_mem_nil, or_false, not_or] at hs
    obtain ⟨h1, h2, h3, h4⟩ := hs
    unfold keyOfStatusStr
    rw [if_neg h1, if_neg h2, if_neg h3, if_neg h4]

/-- Concrete verdicts for the sort witness. -/
def vVerified : PyDict := [(S "status", jstr "Verified"), (S "claim", jstr "a")]

/-- A verdict with a hashable status outside the enumeration. -/
def vWeird : PyDict := [(S "status", jstr "Maybe"), (S "claim", jstr "b")]

/-- A False verdict. -/
def vFalse : PyDict := [(S "status", jstr "False"), (S "claim", jstr "c")]

/-- Witness for C10's amended statement on a concrete list of
string-status verdicts. -/
theorem severity_sort_stable_total_witness :
    ∃ out, pySorted [vVerified, vWeird, vFalse] = .ok out ∧
      List.Pairwise (fun a b => ∀ ka kb, pyKey a = .ok ka → pyKey b = .ok kb → ka ≤ kb) out ∧
      (∀ (p : PyDict → Bool) (k : Nat), (∀ d, p d = true → pyKey d = .ok k) →
        out.filter p = [vVerified, vWeird, vFalse].filter p) ∧
      (∀ s : Str, out.filter (fun d => eqStatusStr d s) =
        [vVerified, vWeird, vFalse].filter (fun d => eqStatusStr d s)) ∧
      keyOfStatusStr (S "False") = 0 ∧
      keyOfStatusStr (S "Inaccurate") = 1 ∧
      keyOfStatusStr (S "Unverifiable") = 2 ∧
      keyOfStatusStr (S "Verified") = 3 ∧
      (∀ s : Str, s ∉ [S "False", S "Inaccurate", S "Unverifiable", S "Verified"] →
        keyOfStatusStr s = 4) :=
  severity_sort_stable_total [vVerified, vWeird, vFalse]
    (by intro d hd
        have h : d = vVerified ∨ d = vWeird ∨ d = vFalse := by simpa using hd
        rcases h with h | h | h <;> subst h
        · exact ⟨3, rfl⟩
        · exact ⟨4, rfl⟩
        · exact ⟨0, rfl⟩)

/-- A verdict whose status is a JSON array: an unhashable Python list. -/
def vArrStatus : PyDict := [(S "status", .arr [jstr "False"]), (S "claim", jstr "d")]

/-- C10 counterexample: a verdict with an array-valued status makes
`priority_order.get` raise `TypeError` at `app.py` 373 and the sort
aborts — no display list exists, so the out-of-enumeration verdict is
not "placed after all Verified verdicts" as the claim asserts for every
verdict list. -/
theorem severity_sort_crash_counterexample :
    pySorted [vVerified, vArrStatus] = .error typeErrorMsg := rfl

/-! ## C7 (corrected): code-fence stripping vs direct parsing

The claim is false in general: `content.split("```")[1]` truncates the
payload at any interior occurrence of the fence marker (and, since the
closing fence directly follows the payload, even at a backtick run
spanning the payload's end).  It holds whenever the tagged payload
contains no fence occurrence and does not end in a backtick. -/

theorem infix_append_left (l t p : Str) (h : l <:+: p) : l <:+: t ++ p := by
  obtain ⟨s, u, hsu⟩ := h
  exact ⟨t ++ s, u, by simpa [List.append_assoc] using congrArg (t ++ ·) hsu⟩

theorem infix_cons_of (l : Str) (c : Char) (X : Str) (h : l <:+: X) : l <:+: c :: X := by
  obtain ⟨s, u, hsu⟩ := h
  exact ⟨c :: s, u, by simpa using congrArg (c :: ·) hsu⟩

/-- First fence occurrence in `X ++ fence` sits exactly at the boundary
when `X` contains no fence and does not end in a backtick. -/
theorem findFence_boundary : ∀ X : Str, ¬ fence <:+: X → X.getLast? ≠ some bq →
    findFence (X ++ fence) = some X.length := by
  intro X
  induction X with
  | nil => intro _ _; rfl
  | cons c X' ih =>
    intro hB hlast
    show (if fence.isPrefixOf (c :: (X' ++ fence)) = true then some 0
      else (findFence (X' ++ fence)).map (· + 1)) = some (X'.length + 1)
    cases hpf : fence.isPrefixOf (c :: (X' ++ fence)) with
    | true =>
      exfalso
      obtain ⟨t, ht⟩ := List.isPrefixOf_iff_prefix.mp hpf
      cases X' with
      | nil =>
        have hc : bq = c := by
          have h := ht
          simp [fence] at h
          exact h.1
        exact hlast (by rw [← hc]; rfl)
      | cons d X'' =>
        cases X'' with
        | nil =>
          have hcd : bq = c ∧ bq = d := by
            have h := ht
            simp [fence] at h
            exact ⟨h.1, h.2.1⟩
          exact hlast (by rw [List.getLast?_cons_cons, ← hcd.2]; rfl)
        | cons e X''' =>
          have h3 : bq = c ∧ bq = d ∧ bq = e := by
            have h := ht
            simp [fence] at h
            exact ⟨h.1, h.2.1, h.2.2.1⟩
          obtain ⟨h1, h2, h3'⟩ := h3
          subst h1
          subst h2
          subst h3'
          exact hB ⟨[], X''', by simp [fence]⟩
    | false =>
      rw [if_neg (by simp)]
      have hX'B : ¬ fence <:+: X' := fun h => hB (infix_cons_of fence c X' h)
      have hX'last : X'.getLast? ≠ some bq := by
        cases X' with
        | nil => simp
        | cons d X'' =>
          rw [List.getLast?_cons_cons] at hlast
          exact hlast
      rw [ih hX'B hX'last]
      rfl

theorem fence_isPrefixOf_append (t : Str) : fence.isPrefixOf (fence ++ t) = true :=
  List.isPrefixOf_iff_prefix.mpr (List.prefix_append fence t)

theorem findFence_at_fence_start (t : Str) : findFence (fence ++ t) = some 0 := by
  show (if fence.isPrefixOf (bq :: (bq :: bq :: t)) = true then some 0
    else (findFence (bq :: bq :: t)).map (· + 1)) = some 0
  rw [show (bq :: (bq :: bq :: t)) = fence ++ t from rfl, fence_isPrefixOf_append t,
    if_pos rfl]

theorem splitFence_nil (fuel : Nat) : splitFence fuel [] = [[]] := by
  cases fuel <;> rfl

theorem splitFence_boundary (X : Str) (hB : ¬ fence <:+: X)
    (hlast : X.getLast? ≠ some bq) (fuel : Nat) :
    splitFence (fuel + 1) (X ++ fence) = [X, []] := by
  show (match findFence (X ++ fence) with
    | none => [X ++ fence]
    | some i => (X ++ fence).take i :: splitFence fuel ((X ++ fence).drop (i + 3))) = [X, []]
  rw [findFence_boundary X hB hlast]
  show (X ++ fence).take X.length :: splitFence fuel ((X ++ fence).drop (X.length + 3)) = [X, []]
  rw [List.take_left]
  have hdrop : (X ++ fence).drop (X.length + 3) = [] := by
    simp [List.drop_append, fence]
  rw [hdrop, splitFence_nil]

theorem splitFence_wrap (X : Str) (hB : ¬ fence <:+: X)
    (hlast : X.getLast? ≠ some bq) (fuel : Nat) :
    splitFence (fuel + 2) (fence ++ (X ++ fence)) = [[], X, []] := by
  show (match findFence (fence ++ (X ++ fence)) with
    | none => [fence ++ (X ++ fence)]
    | some i => (fence ++ (X ++ fence)).take i ::
        splitFence (fuel + 1) ((fence ++ (X ++ fence)).drop (i + 3))) = [[], X, []]
  rw [findFence_at_fence_start (X ++ fence)]
  show (fence ++ (X ++ fence)).take 0 ::
    splitFence (fuel + 1) ((fence ++ (X ++ fence)).drop (0 + 3)) = [[], X, []]
  rw [List.take_zero]
  have hdrop : (fence ++ (X ++ fence)).drop (0 + 3) = X ++ fence := by
    show (fence ++ (X ++ fence)).drop fence.length = X ++ fence
    exact List.drop_left fence (X ++ fence)
  rw [hdrop, splitFence_boundary X hB hlast fuel]

theorem pySplitFence_wrap (X : Str) (hB : ¬ fence <:+: X)
    (hlast : X.getLast? ≠ some bq) :
    pySplitFence (fence ++ (X ++ fence)) = [[], X, []] := by
  rw [pySplitFence]
  have hlen : (fence ++ (X ++ fence)).length = (X.length + 4) + 2 := by
    rw [List.length_append, List.length_append, show fence.length = 3 from rfl]
    omega
  rw [hlen]
  exact splitFence_wrap X hB hlast (X.length + 4)

theorem stripFences_wrap (X : Str) (hB : ¬ fence <:+: X)
    (hlast : X.getLast? ≠ some bq) :
    stripFences (fence ++ (X ++ fence)) =
      (if jsonTag.isPrefixOf X then X.drop 4 else X) := by
  unfold stripFences
  rw [fence_isPrefixOf_append (X ++ fence), if_pos rfl,
    pySplitFence_wrap X hB hlast]
  rfl

theorem isPySpace_bq : isPySpace bq = false := rfl

theorem pyStrip_wrap (u : Str) : pyStrip (fence ++ (u ++ fence)) = fence ++ (u ++ fence) := by
  unfold pyStrip
  have h1 : (fence ++ (u ++ fence)).dropWhile isPySpace = fence ++ (u ++ fence) := by
    show List.dropWhile isPySpace (bq :: (bq :: bq :: (u ++ fence))) =
      fence ++ (u ++ fence)
    rw [List.dropWhile_cons, isPySpace_bq, if_neg (by simp)]
    rfl
  rw [h1]
  have h2 : fence ++ (u ++ fence) = (fence ++ (u ++ [bq, bq])) ++ [bq] := by
    simp [fence, List.append_assoc]
  rw [h2, List.rdropWhile_concat_neg isPySpace _ bq (by rw [isPySpace_bq]; simp)]

theorem pyStrip_isInfix (l : Str) : pyStrip l <:+: l :=
  ((List.rdropWhile_prefix isPySpace (l.dropWhile isPySpace)).isInfix).trans
    ((List.dropWhile_suffix isPySpace).isInfix)

theorem pyStrip_idem (l : Str) : pyStrip (pyStrip l) = pyStrip l := by
  unfold pyStrip
  have hin : (List.rdropWhile isPySpace (l.dropWhile isPySpace)).dropWhile isPySpace =
      List.rdropWhile isPySpace (l.dropWhile isPySpace) := by
    rw [List.dropWhile_eq_self_iff]
    intro hl
    obtain ⟨t, ht⟩ := List.rdropWhile_prefix isPySpace (l.dropWhile isPySpace)
    have hl' : 0 < (l.dropWhile isPySpace).length := by
      rw [← ht, List.length_append]
      omega
    have hget : (List.rdropWhile isPySpace (l.dropWhile isPySpace)).get ⟨0, hl⟩ =
        (l.dropWhile isPySpace).get ⟨0, hl'⟩ := by
      rw [show (l.dropWhile isPySpace).get ⟨0, hl'⟩ =
        ((List.rdropWhile isPySpace (l.dropWhile isPySpace)) ++ t).get
          ⟨0, by rw [ht]; exact hl'⟩ from by simp [ht]]
      exact (List.get_append 0 hl).symm
    rw [hget]
    exact List.dropWhile_get_zero_not isPySpace l hl'
  rw [hin, List.rdropWhile_idempotent]

theorem stripFences_not_fenced (m : Str) (h : ¬ fence <+: m) : stripFences m = m := by
  unfold stripFences
  rw [if_neg (fun hx => h (List.isPrefixOf_iff_prefix.mp hx))]

/-- C7, amended: for every JSON payload `p` and optional `json` language
tag, if the tagged payload contains no triple-backtick and does not end in
a backtick (and an untagged payload does not itself begin with the four
characters `json`), then the fence-stripping-then-strip normalization of
the fenced response — used identically by `extract_claims` and
`verify_claim` — yields exactly the normalization of the unfenced payload,
so `json.loads` produces identical structured data on both.  (The
unamended claim over all fenced payloads is false: a payload containing
the fence marker inside a JSON string is truncated at it, see the
counterexample.) -/
theorem fence_stripping_preserves_parse (p tag : Str)
    (htag : tag = [] ∨ tag = jsonTag)
    (hB : ¬ fence <:+: (tag ++ p))
    (hlast : (tag ++ p).getLast? ≠ some bq)
    (hnj : tag = [] → ¬ jsonTag <+: p) :
    normalizeResponse (fence ++ ((tag ++ p) ++ fence)) = normalizeResponse p ∧
    parseJson (normalizeResponse (fence ++ ((tag ++ p) ++ fence))) =
      parseJson (normalizeResponse p) := by
  have hstrip : stripFences (fence ++ ((tag ++ p) ++ fence)) = p := by
    rw [stripFences_wrap (tag ++ p) hB hlast]
    rcases htag with h | h
    · subst h
      simp only [List.nil_append]
      rw [if_neg (fun hx => (hnj rfl) (List.isPrefixOf_iff_prefix.mp hx))]
    · subst h
      rw [if_pos (List.isPrefixOf_iff_prefix.mpr (List.prefix_append jsonTag p))]
      exact List.drop_left jsonTag p
  have hmain : normalizeResponse (fence ++ ((tag ++ p) ++ fence)) = pyStrip p := by
    rw [normalizeResponse, pyStrip_wrap (tag ++ p), hstrip]
  have hfp : ¬ fence <+: pyStrip p := by
    intro h
    exact hB (infix_append_left fence tag p (h.isInfix.trans (pyStrip_isInfix p)))
  have hrhs : normalizeResponse p = pyStrip p := by
    rw [normalizeResponse, stripFences_not_fenced (pyStrip p) hfp, pyStrip_idem]
  exact ⟨hmain.trans hrhs.symm, by rw [hmain, hrhs]⟩

/-- A concrete well-behaved payload. -/
def pW : Str := S "\x7b\"a\": 1\x7d"

/-- Witness for C7's amended statement: a `json`-tagged fenced payload
normalizes and parses exactly like the bare payload. -/
theorem fence_stripping_preserves_parse_witness :
    normalizeResponse (fence ++ ((jsonTag ++ pW) ++ fence)) = normalizeResponse pW ∧
    parseJson (normalizeResponse (fence ++ ((jsonTag ++ pW) ++ fence))) =
      parseJson (normalizeResponse pW) :=
  fence_stripping_preserves_parse pW jsonTag (Or.inr rfl) (by decide) (by decide)
    (fun h => absurd h (by decide))

/-- A JSON payload containing the fence marker inside a string literal. -/
def pBad : Str := S "\x7b\"x\": \"a" ++ fence ++ S "b\"\x7d"

set_option maxRecDepth 100000 in
unseal Rat.add Rat.sub Rat.mul Rat.inv in
/-- C7 counterexample: the payload `{"x": "a(triple backtick)b"}` is
valid JSON and parses directly, but the fence-stripping step truncates
the fenced response at the interior marker, leaving `{"x": "a`, which
fails to parse — the claim's "same structured data" equality is
violated. -/
theorem fence_stripping_counterexample :
    parseJson (normalizeResponse pBad) =
      some (.obj [(S "x", .str (S "a" ++ fence ++ S "b"))]) ∧
    normalizeResponse (fence ++ ((jsonTag ++ pBad) ++ fence)) = S "\x7b\"x\": \"a" ∧
    parseJson (normalizeResponse (fence ++ ((jsonTag ++ pBad) ++ fence))) = none :=
  ⟨rfl, rfl, rfl⟩

end FactCheck
